import Mathlib

/-!
# accesslog: response observer, standard collector and middleware

A verification development for `github.com/lestrrat-go/accesslog`.

The Go sources are embedded shallowly:

* `response_writer.go`: the observer `responseWriter` and the default builder,
* `standard.go`: the standard collector,
* `clock.go`: the clocks,
* `accesslog.go`: the `Middleware` builder and the per-request `handler`.

Conventions of the embedding.

* The underlying `http.ResponseWriter` (the sink) is foreign code. It is a record of
  two transition functions over an arbitrary state type `σ`; every call either
  returns or panics, and in both cases leaves a new sink state behind.
* The observer holds the sink in its embedded field, so the sink state travels
  inside the observer value.
* `time.Now()` is an input: every function that reads the system clock takes the
  reading as an argument.
* `int64` arithmetic wraps (`wrapInt64`); Go `int` is taken to be at most 64 bits
  wide, so that `int64(n)` keeps the value of an `int`.
* A `nil` pointer or a `nil` slice is `none`.
-/

namespace accesslog

/-! ## Foreign types -/

/-- An instant (`time.Time`); `0` is the zero value `time.Time{}`. -/
abbrev Time := Int

/-- A non-nil Go `error`; the nil error is `none : Option Error`. -/
abbrev Error := String

/-- The value carried by a Go panic. -/
abbrev PanicValue := String

/-- How a Go call ends: it returns a value or it panics. -/
inductive Returns (α : Type) where
  | ret (a : α)
  | panic (v : PanicValue)
  deriving DecidableEq, Repr

/-- Go's `int64(x)`: reduction to the 64-bit two's complement range. -/
def wrapInt64 (x : Int) : Int := (x + 2 ^ 63) % 2 ^ 64 - 2 ^ 63

namespace http

/-- The method set of `net/http.ResponseWriter` that the observer overrides, as
transition functions on the sink state `σ`. (`Header()` is promoted unchanged from
the embedded sink and touches no observer field.) -/
structure ResponseWriter (σ : Type) where
  WriteHeader : σ → Int → Returns Unit × σ
  Write : σ → List UInt8 → Returns (Int × Option Error) × σ

/-- One call received by a sink. -/
inductive Call where
  | WriteHeader (code : Int)
  | Write (b : List UInt8)
  deriving DecidableEq, Repr

/-- The sink `S` with a journal: it behaves as `S` and appends every call it
receives to the list kept next to its state. -/
def ResponseWriter.traced {σ : Type} (S : ResponseWriter σ) : ResponseWriter (σ × List Call) where
  WriteHeader := fun s code => ((S.WriteHeader s.1 code).1, ((S.WriteHeader s.1 code).2, s.2 ++ [Call.WriteHeader code]))
  Write := fun s b => ((S.Write s.1 b).1, ((S.Write s.1 b).2, s.2 ++ [Call.Write b]))

/-- `http.Header`: a map from canonical header names to their values. -/
abbrev Header := List (String × List String)

/-- `Header.Get`: the first value stored under `key`, or `""` when there is none. -/
def Header.Get (h : Header) (key : String) : String :=
  match h.lookup key with
  | some (v :: _) => v
  | _ => ""

/-- The part of `net/url.URL` that is read. -/
structure URL where
  Path : String
  deriving DecidableEq, Repr

/-- The part of `net/http.Request` that is read. -/
structure Request where
  Method : String
  URL : URL
  Header : Header
  RemoteAddr : String
  deriving DecidableEq, Repr

/-- `Request.Referer`. -/
def Request.Referer (r : Request) : String := Header.Get r.Header "Referer"

/-- `Request.UserAgent`. -/
def Request.UserAgent (r : Request) : String := Header.Get r.Header "User-Agent"

end http

namespace bytes

/-- `bytes.Buffer` as used by the observer (only ever appended to): its contents. -/
abbrev Buffer := List UInt8

/-- `Buffer.Write`: append `p`. -/
def Buffer.Write (b : Buffer) (p : List UInt8) : Buffer := b ++ p

/-- `Buffer.Bytes`: the unread part of the buffer. The zero `Buffer` has a nil
backing slice, which stays nil until a non-empty write grows it, so an empty
buffer yields the nil slice. -/
def Buffer.Bytes (b : Buffer) : Option (List UInt8) :=
  if b = [] then none else some b

end bytes

/-! ## response_writer.go -/

/-- The observer `responseWriter`. The embedded sink is kept as its state. -/
structure responseWriter (σ : Type) where
  ResponseWriter : σ
  bytesWritten : Int
  code : Int
  start : Time
  end_ : Time
  responseBody : Option bytes.Buffer
  deriving DecidableEq, Repr

/-- The implementations of the interface `ResponseWriterBuilder` in the package. -/
inductive ResponseWriterBuilder where
  | defaultResponseWriterBuilder
  deriving DecidableEq, Repr

/-- `DefaultResponseWriterBuilder()`. -/
def DefaultResponseWriterBuilder : ResponseWriterBuilder :=
  ResponseWriterBuilder.defaultResponseWriterBuilder

/-- `defaultResponseWriterBuilder.Wrap(w, _, recordResponse)`; `now` is the value
`time.Now()` returns inside it. Fields not named in the literal get zero values. -/
def defaultResponseWriterBuilder.Wrap {σ : Type} (w : σ) (_r : http.Request) (recordResponse : Bool)
    (now : Time) : responseWriter σ :=
  let rw : responseWriter σ :=
    { ResponseWriter := w, bytesWritten := 0, code := 0, start := now, end_ := 0, responseBody := none }
  if recordResponse then { rw with responseBody := some [] } else rw

/-- Interface dispatch of `ResponseWriterBuilder.Wrap`. -/
def ResponseWriterBuilder.Wrap {σ : Type} (rwb : ResponseWriterBuilder) (w : σ) (r : http.Request)
    (recordResponse : Bool) (now : Time) : responseWriter σ :=
  match rwb with
  | .defaultResponseWriterBuilder => defaultResponseWriterBuilder.Wrap w r recordResponse now

/-- `(*responseWriter).End()`; `now` is the value `time.Now()` returns. -/
def responseWriter.End {σ : Type} (rw : responseWriter σ) (now : Time) : responseWriter σ :=
  { rw with end_ := now }

/-- `(*responseWriter).WriteHeader(code)`: the field is assigned first, then the
call is forwarded; a panic of the sink unwinds with the assignment done. -/
def responseWriter.WriteHeader {σ : Type} (S : http.ResponseWriter σ) (rw : responseWriter σ)
    (code : Int) : Returns Unit × responseWriter σ :=
  let rw := { rw with code := code }
  match S.WriteHeader rw.ResponseWriter code with
  | (res, s) => (res, { rw with ResponseWriter := s })

/-- `(*responseWriter).Write(b)`: forward, then count, then record. A panic of the
sink unwinds before any field is assigned. -/
def responseWriter.Write {σ : Type} (S : http.ResponseWriter σ) (rw : responseWriter σ)
    (b : List UInt8) : Returns (Int × Option Error) × responseWriter σ :=
  match S.Write rw.ResponseWriter b with
  | (Returns.panic v, s) => (Returns.panic v, { rw with ResponseWriter := s })
  | (Returns.ret (written, err), s) =>
    let rw := { rw with ResponseWriter := s }
    let rw := { rw with bytesWritten := wrapInt64 (rw.bytesWritten + written) }
    let rw :=
      match rw.responseBody with
      | some rb => { rw with responseBody := some (rb.Write b) }
      | none => rw
    (Returns.ret (written, err), rw)

/-- `(*responseWriter).BytesWritten()`. -/
def responseWriter.BytesWritten {σ : Type} (rw : responseWriter σ) : Int := rw.bytesWritten

/-- `(*responseWriter).Status()`. -/
def responseWriter.Status {σ : Type} (rw : responseWriter σ) : Int := rw.code

/-- `(*responseWriter).StartTime()`. -/
def responseWriter.StartTime {σ : Type} (rw : responseWriter σ) : Time := rw.start

/-- `(*responseWriter).EndTime()`. -/
def responseWriter.EndTime {σ : Type} (rw : responseWriter σ) : Time := rw.end_

/-- `(*responseWriter).Body()`. -/
def responseWriter.Body {σ : Type} (rw : responseWriter σ) : Option (List UInt8) :=
  match rw.responseBody with
  | some rb => rb.Bytes
  | none => none

/-! ## Callers of the observer -/

/-- One method call made on the observer by the code that holds it. `End` carries
the reading of `time.Now()` at the moment of the call. -/
inductive Op where
  | WriteHeader (code : Int)
  | Write (b : List UInt8)
  | End (now : Time)
  deriving DecidableEq, Repr

/-- What the caller gets back from one call. -/
inductive Reply where
  | WriteHeader (res : Returns Unit)
  | Write (res : Returns (Int × Option Error))
  | End
  deriving DecidableEq, Repr

/-- Perform one call on the observer. -/
def responseWriter.call {σ : Type} (S : http.ResponseWriter σ) (rw : responseWriter σ) :
    Op → Reply × responseWriter σ
  | Op.WriteHeader code => (Reply.WriteHeader (rw.WriteHeader S code).1, (rw.WriteHeader S code).2)
  | Op.Write b => (Reply.Write (rw.Write S b).1, (rw.Write S b).2)
  | Op.End now => (Reply.End, rw.End now)

/-- Perform a sequence of calls, one after the other (a caller may recover from a
panic and go on). The result is the transcript (each call with its reply) and the
observer afterwards. -/
def responseWriter.calls {σ : Type} (S : http.ResponseWriter σ) (rw : responseWriter σ) :
    List Op → List (Op × Reply) × responseWriter σ
  | [] => ([], rw)
  | op :: ops =>
    ((op, (rw.call S op).1) :: ((rw.call S op).2.calls S ops).1, ((rw.call S op).2.calls S ops).2)

/-- The codes of the `WriteHeader` calls of a sequence, in call order. -/
def Op.codes : List Op → List Int
  | [] => []
  | Op.WriteHeader code :: ops => code :: Op.codes ops
  | _ :: ops => Op.codes ops

/-- The codes of the `WriteHeader` calls in a sink journal, in call order. -/
def http.Call.codes : List http.Call → List Int
  | [] => []
  | http.Call.WriteHeader code :: cs => code :: http.Call.codes cs
  | _ :: cs => http.Call.codes cs

/-- The `Write` calls of a transcript that returned: slice `b`, count `n`, error `err`. -/
def answered : List (Op × Reply) → List (List UInt8 × Int × Option Error)
  | [] => []
  | (Op.Write b, Reply.Write (Returns.ret (n, err))) :: t => (b, n, err) :: answered t
  | _ :: t => answered t

/-- Sum of `len(b)` over the answered writes that succeeded (`err = nil`). -/
def sumSucceeded : List (List UInt8 × Int × Option Error) → Int
  | [] => 0
  | (b, _, none) :: t => (b.length : Int) + sumSucceeded t
  | (_, _, some _) :: t => sumSucceeded t

/-- Sum of the counts `n` that failed writes (`err ≠ nil`) reported. -/
def sumFailed : List (List UInt8 × Int × Option Error) → Int
  | [] => 0
  | (_, _, none) :: t => sumFailed t
  | (_, n, some _) :: t => n + sumFailed t

/-- Sum of the counts `n` of all answered writes. -/
def sumReported : List (List UInt8 × Int × Option Error) → Int
  | [] => 0
  | (_, n, _) :: t => n + sumReported t

/-- The `io.Writer` contract on what a sink returns from `Write`:
`0 ≤ n ≤ len(b)`, and `n = len(b)` when the error is nil. -/
def http.ResponseWriter.ObeysWriter {σ : Type} (S : http.ResponseWriter σ) : Prop :=
  ∀ (s : σ) (b : List UInt8) (n : Int) (err : Option Error),
    (S.Write s b).1 = Returns.ret (n, err) →
      0 ≤ n ∧ n ≤ (b.length : Int) ∧ (err = none → n = (b.length : Int))

/-! ## Foreign types of the middleware -/

/-- Go `string`. -/
abbrev GoString := String

/-- Go `int` and `int64` values. -/
abbrev GoInt := Int

namespace slog

/-- The kinds of `slog.Value` that the package builds. -/
inductive Value where
  | KindString (s : GoString)
  | KindInt64 (i : GoInt)
  deriving DecidableEq, Repr

/-- `slog.Attr`: a key and a value. -/
structure Attr where
  Key : GoString
  Value : Value
  deriving DecidableEq, Repr

/-- `slog.String(key, value)`. -/
def String (key : GoString) (value : GoString) : Attr := ⟨key, Value.KindString value⟩

/-- `slog.Int64(key, value)`. -/
def Int64 (key : GoString) (value : GoInt) : Attr := ⟨key, Value.KindInt64 value⟩

/-- `slog.Int(key, value)`, which is `Int64(key, int64(value))`; the conversion keeps
the value of an `int`. -/
def Int (key : GoString) (value : GoInt) : Attr := Int64 key value

/-- `slog.Level`. -/
abbrev Level := GoInt

/-- `slog.LevelInfo`. -/
def LevelInfo : Level := 0

/-- A `*slog.Logger`, known by its name. -/
structure Logger where
  name : GoString
  deriving DecidableEq, Repr

/-- `slog.Default()`. -/
def Default : Logger := ⟨"default"⟩

end slog

/-! ## clock.go -/

/-- The interface `Clock`. `Now` gets the reading of the system clock at the moment
of the call and returns what the clock reports. -/
structure Clock where
  Now : Time → Time

/-- `StaticClock(t)`: `Now()` returns `time.Time(c)`. -/
def StaticClock (t : Time) : Clock := ⟨fun _ => t⟩

/-- `SystemClock{}`: `Now()` returns `time.Now()`. -/
def SystemClock : Clock := ⟨fun now => now⟩

/-! ## standard.go -/

/-- What a call of `Collect` leaves behind: the attributes it returns, and the
observer and the request (both passed by pointer) as they are afterwards. -/
structure Collected (σ : Type) where
  attrs : List slog.Attr
  rw : responseWriter σ
  r : http.Request

/-- The interface `Collector`. -/
structure Collector (σ : Type) where
  Collect : responseWriter σ → http.Request → Collected σ

/-- `standard.Collect(rw, r)`. -/
def standard.Collect {σ : Type} (rw : responseWriter σ) (r : http.Request) : Collected σ :=
  { attrs :=
      [ slog.String "remote_addr" r.RemoteAddr,
        slog.String "http_method" r.Method,
        slog.String "path" r.URL.Path,
        slog.Int "status" rw.Status,
        slog.Int64 "body_bytes_sent" rw.BytesWritten,
        slog.String "http_referer" r.Referer,
        slog.String "http_user_agent" r.UserAgent ],
    rw := rw,
    r := r }

/-- `Standard()`. -/
def Standard {σ : Type} : Collector σ := ⟨standard.Collect⟩

/-! ## accesslog.go -/

namespace http

/-- What a downstream `http.Handler` does with one request, as seen from the
response writer it is given: it returns, it panics, or it calls `WriteHeader` or
`Write` and goes on according to how that call ended (it may recover from a panic
of the call, or let it through by panicking with the same value). The value it is
given is the observer, so it can also reach `End()` through the exported interface
`accesslog.ResponseWriter`; `End` carries the reading of `time.Now()` at that call.
The accessors change nothing, and a handler whose course depends on what they
return is one of these trees for each value returned. -/
inductive Handler where
  | Return
  | Panic (v : PanicValue)
  | WriteHeader (code : Int) (next : Returns Unit → Handler)
  | Write (b : List UInt8) (next : Returns (Int × Option Error) → Handler)
  | End (now : Time) (next : Handler)

end http

/-- `next.ServeHTTP(rw, r)` with the observer as response writer: the panic value if
the handler panicked (`none` if it returned), and the observer afterwards. -/
def http.Handler.ServeHTTP {σ : Type} (S : http.ResponseWriter σ) :
    http.Handler → responseWriter σ → Option PanicValue × responseWriter σ
  | http.Handler.Return, rw => (none, rw)
  | http.Handler.Panic v, rw => (some v, rw)
  | http.Handler.WriteHeader code next, rw =>
    http.Handler.ServeHTTP S (next (rw.WriteHeader S code).1) (rw.WriteHeader S code).2
  | http.Handler.Write b next, rw =>
    http.Handler.ServeHTTP S (next (rw.Write S b).1) (rw.Write S b).2
  | http.Handler.End now next, rw =>
    http.Handler.ServeHTTP S next (rw.End now)

/-- The builder `Middleware`. -/
structure Middleware (σ : Type) where
  clock : Clock
  collector : Collector σ
  logger : slog.Logger
  logLevel : slog.Level
  recordResponse : Bool
  rwbuilder : ResponseWriterBuilder

/-- The per-request `handler`. -/
structure handler (σ : Type) where
  next : http.Handler
  clock : Clock
  collector : Collector σ
  logger : slog.Logger
  logLevel : slog.Level
  recordResponse : Bool
  rwbuilder : ResponseWriterBuilder

/-- `New()`. -/
def New {σ : Type} : Middleware σ :=
  { clock := SystemClock,
    collector := Standard,
    logLevel := slog.LevelInfo,
    logger := slog.Default,
    recordResponse := false,
    rwbuilder := DefaultResponseWriterBuilder }

/-- `(*Middleware).Clock(clock)`. -/
def Middleware.Clock {σ : Type} (al : Middleware σ) (clock : Clock) : Middleware σ :=
  { al with clock := clock }

/-- `(*Middleware).Collector(collector)`. -/
def Middleware.Collector {σ : Type} (al : Middleware σ) (collector : Collector σ) : Middleware σ :=
  { al with collector := collector }

/-- `(*Middleware).Logger(logger)`. -/
def Middleware.Logger {σ : Type} (al : Middleware σ) (logger : slog.Logger) : Middleware σ :=
  { al with logger := logger }

/-- `(*Middleware).LogLevel(level)`. -/
def Middleware.LogLevel {σ : Type} (al : Middleware σ) (level : slog.Level) : Middleware σ :=
  { al with logLevel := level }

/-- `(*Middleware).RecordResponse(b)`. -/
def Middleware.RecordResponse {σ : Type} (al : Middleware σ) (b : Bool) : Middleware σ :=
  { al with recordResponse := b }

/-- `(*Middleware).Wrap(next)`. -/
def Middleware.Wrap {σ : Type} (al : Middleware σ) (next : http.Handler) : handler σ :=
  { next := next,
    clock := al.clock,
    collector := al.collector,
    logger := al.logger,
    logLevel := al.logLevel,
    recordResponse := al.recordResponse,
    rwbuilder := al.rwbuilder }

/-- One call that `handler.ServeHTTP` itself makes on a collaborator (what the
downstream handler calls in its turn is not listed here). -/
inductive Event where
  | Wrap (recordResponse : Bool)
  | ServeHTTP
  | End
  | Collect
  | LogAttrs (logger : slog.Logger) (level : slog.Level) (msg : GoString) (attrs : List slog.Attr)
  deriving DecidableEq, Repr

/-- How `handler.ServeHTTP` ends: the panic that left it (`none` if it returned), the
observer as it is then, and the calls made on collaborators, in order. -/
structure Served (σ : Type) where
  panic : Option PanicValue
  rw : responseWriter σ
  journal : List Event

/-- `handler.process(rw, r)`; `journal` holds the calls made so far. -/
def handler.process {σ : Type} (m : handler σ) (rw : responseWriter σ) (r : http.Request)
    (journal : List Event) : Served σ :=
  let c := m.collector.Collect rw r
  let journal := journal ++ [Event.Collect]
  let journal := journal ++ [Event.LogAttrs m.logger m.logLevel "access" c.attrs]
  { panic := none, rw := c.rw, journal := journal }

/-- `handler.ServeHTTP(w, r)`. `now0` and `now1` are the readings of `time.Now()` at
the first and at the second time it is read. There is no `defer` and no `recover`:
a panic of the downstream handler unwinds through the function. -/
def handler.ServeHTTP {σ : Type} (S : http.ResponseWriter σ) (h : handler σ) (w : σ)
    (r : http.Request) (now0 now1 : Time) : Served σ :=
  let rw := h.rwbuilder.Wrap w r h.recordResponse now0
  let journal := [Event.Wrap h.recordResponse]
  let journal := journal ++ [Event.ServeHTTP]
  match h.next.ServeHTTP S rw with
  | (some v, rw) => { panic := some v, rw := rw, journal := journal }
  | (none, rw) =>
    let rw := rw.End now1
    let journal := journal ++ [Event.End]
    h.process rw r journal

/-! ## Notions used to state the properties -/

/-- The bytes of the `Write` calls of a sequence, concatenated in call order. -/
def Op.written : List Op → List UInt8
  | [] => []
  | Op.Write b :: ops => b ++ Op.written ops
  | _ :: ops => Op.written ops

/-- The slices of the answered writes, concatenated in call order. -/
def recorded : List (List UInt8 × Int × Option Error) → List UInt8
  | [] => []
  | (b, _, _) :: t => b ++ recorded t

/-- Whether every `Write` call of the transcript returned (none ended in a panic). -/
def allWritesReturned : List (Op × Reply) → Bool
  | [] => true
  | (_, Reply.Write (Returns.panic _)) :: _ => false
  | _ :: t => allWritesReturned t

/-- The calls that a sequence of observer calls passes on to the sink, in call order. -/
def Op.forwarded : List Op → List http.Call
  | [] => []
  | Op.WriteHeader code :: ops => http.Call.WriteHeader code :: Op.forwarded ops
  | Op.Write b :: ops => http.Call.Write b :: Op.forwarded ops
  | Op.End _ :: ops => Op.forwarded ops

/-- The observer `rw` placed on another sink; all observer fields are kept. -/
def responseWriter.onSink {σ τ : Type} (rw : responseWriter σ) (w : τ) : responseWriter τ :=
  { ResponseWriter := w, bytesWritten := rw.bytesWritten, code := rw.code, start := rw.start,
    end_ := rw.end_, responseBody := rw.responseBody }

/-! ## Concrete sinks and handlers used in examples -/

/-- A sink that accepts everything: its state is what the client has received. -/
def plainSink : http.ResponseWriter (List UInt8) where
  WriteHeader := fun s _ => (Returns.ret (), s)
  Write := fun s b => (Returns.ret ((b.length : Int), none), s ++ b)

/-- A sink that takes at most three bytes per call and reports a short write
otherwise, as `io.Writer` asks. -/
def shortSink : http.ResponseWriter (List UInt8) where
  WriteHeader := fun s _ => (Returns.ret (), s)
  Write := fun s b =>
    if b.length ≤ 3 then (Returns.ret ((b.length : Int), none), s ++ b)
    else (Returns.ret (3, some "short write"), s ++ b.take 3)

/-- A sink whose `Write` always panics. -/
def brokenSink : http.ResponseWriter (List UInt8) where
  WriteHeader := fun s _ => (Returns.ret (), s)
  Write := fun s _ => (Returns.panic "connection hijacked", s)

/-- A request without a `Referer` header. -/
def sampleRequest : http.Request :=
  { Method := "GET", URL := ⟨"/"⟩, Header := [("User-Agent", ["Go-http-client/1.1"])],
    RemoteAddr := "127.0.0.1:99999" }

/-- The bytes of `"Hello, World!"`. -/
def helloWorld : List UInt8 := [72, 101, 108, 108, 111, 44, 32, 87, 111, 114, 108, 100, 33]

/-- A handler that calls `End()` itself, the clock reading 7, and then panics. -/
def endThenPanicHandler : http.Handler := http.Handler.End 7 (http.Handler.Panic "boom")

/-- A handler that panics at once. -/
def panickingHandler : http.Handler := http.Handler.Panic "boom"

/-- A handler that writes and lets a panic of the write through. -/
def writeOrDieHandler : http.Handler :=
  http.Handler.Write helloWorld fun res =>
    match res with
    | Returns.ret _ => http.Handler.Return
    | Returns.panic v => http.Handler.Panic v

/-- The handler of the package example: `WriteHeader(200)`, then `Write("Hello, World!")`. -/
def exampleHandler : http.Handler :=
  http.Handler.WriteHeader 200 fun _ => http.Handler.Write helloWorld fun _ => http.Handler.Return

/-! ## Lemmas on `int64` -/

theorem wrapInt64_wrap_add (a b : Int) : wrapInt64 (wrapInt64 a + b) = wrapInt64 (a + b) := by
  unfold wrapInt64
  norm_num
  omega

theorem wrapInt64_zero : wrapInt64 0 = 0 := by decide

/-! ## Lemmas on a single call -/

section single
variable {σ : Type} (S : http.ResponseWriter σ) (rw : responseWriter σ)

theorem Write_of_panic (b : List UInt8) (v : PanicValue) (s : σ)
    (h : S.Write rw.ResponseWriter b = (Returns.panic v, s)) :
    rw.Write S b = (Returns.panic v, { rw with ResponseWriter := s }) := by
  simp [responseWriter.Write, h]

theorem Write_of_ret (b : List UInt8) (n : Int) (err : Option Error) (s : σ)
    (h : S.Write rw.ResponseWriter b = (Returns.ret (n, err), s)) :
    rw.Write S b =
      (Returns.ret (n, err),
        { rw with
          ResponseWriter := s,
          bytesWritten := wrapInt64 (rw.bytesWritten + n),
          responseBody := rw.responseBody.map fun rb => rb ++ b }) := by
  cases hb : rw.responseBody <;> simp [responseWriter.Write, h, hb, bytes.Buffer.Write]

theorem Write_fst (b : List UInt8) : (rw.Write S b).1 = (S.Write rw.ResponseWriter b).1 := by
  rcases h : S.Write rw.ResponseWriter b with ⟨res, s⟩
  rcases res with ⟨n, err⟩ | v
  · rw [Write_of_ret S rw b n err s h]
  · rw [Write_of_panic S rw b v s h]

theorem Write_sink (b : List UInt8) :
    (rw.Write S b).2.ResponseWriter = (S.Write rw.ResponseWriter b).2 := by
  rcases h : S.Write rw.ResponseWriter b with ⟨res, s⟩
  rcases res with ⟨n, err⟩ | v
  · rw [Write_of_ret S rw b n err s h]
  · rw [Write_of_panic S rw b v s h]

theorem Write_code (b : List UInt8) : (rw.Write S b).2.code = rw.code := by
  rcases h : S.Write rw.ResponseWriter b with ⟨res, s⟩
  rcases res with ⟨n, err⟩ | v
  · rw [Write_of_ret S rw b n err s h]
  · rw [Write_of_panic S rw b v s h]

theorem Write_end (b : List UInt8) : (rw.Write S b).2.end_ = rw.end_ := by
  rcases h : S.Write rw.ResponseWriter b with ⟨res, s⟩
  rcases res with ⟨n, err⟩ | v
  · rw [Write_of_ret S rw b n err s h]
  · rw [Write_of_panic S rw b v s h]

theorem Write_start (b : List UInt8) : (rw.Write S b).2.start = rw.start := by
  rcases h : S.Write rw.ResponseWriter b with ⟨res, s⟩
  rcases res with ⟨n, err⟩ | v
  · rw [Write_of_ret S rw b n err s h]
  · rw [Write_of_panic S rw b v s h]

theorem Write_body_none (b : List UInt8) (h0 : rw.responseBody = none) :
    (rw.Write S b).2.responseBody = none := by
  rcases h : S.Write rw.ResponseWriter b with ⟨res, s⟩
  rcases res with ⟨n, err⟩ | v
  · rw [Write_of_ret S rw b n err s h]; simp [h0]
  · rw [Write_of_panic S rw b v s h]; simp [h0]

theorem WriteHeader_code (code : Int) : (rw.WriteHeader S code).2.code = code := rfl

theorem WriteHeader_fst (code : Int) :
    (rw.WriteHeader S code).1 = (S.WriteHeader rw.ResponseWriter code).1 := rfl

theorem WriteHeader_sink (code : Int) :
    (rw.WriteHeader S code).2.ResponseWriter = (S.WriteHeader rw.ResponseWriter code).2 := rfl

theorem WriteHeader_bytesWritten (code : Int) :
    (rw.WriteHeader S code).2.bytesWritten = rw.bytesWritten := rfl

theorem WriteHeader_body (code : Int) :
    (rw.WriteHeader S code).2.responseBody = rw.responseBody := rfl

theorem WriteHeader_end (code : Int) : (rw.WriteHeader S code).2.end_ = rw.end_ := rfl

theorem WriteHeader_start (code : Int) : (rw.WriteHeader S code).2.start = rw.start := rfl

end single

/-! ## Lemmas on sequences of calls -/

section sequences
variable {σ : Type} (S : http.ResponseWriter σ)

theorem getLast_cons_getD (l : List Int) (c d : Int) :
    ((c :: l).getLast?).getD d = (l.getLast?).getD c := by
  induction l generalizing c d with
  | nil => simp
  | cons x l ih => rw [List.getLast?_cons_cons, ih x d, ih x c]

theorem calls_cons (rw : responseWriter σ) (op : Op) (ops : List Op) :
    rw.calls S (op :: ops) =
      ((op, (rw.call S op).1) :: ((rw.call S op).2.calls S ops).1,
        ((rw.call S op).2.calls S ops).2) := rfl

/-- The status after a run is the code of the last `WriteHeader` call, or the old
status when there was none. -/
theorem calls_code (ops : List Op) (rw : responseWriter σ) :
    (rw.calls S ops).2.code = ((Op.codes ops).getLast?).getD rw.code := by
  induction ops generalizing rw with
  | nil => simp [responseWriter.calls, Op.codes]
  | cons op ops ih =>
    rw [calls_cons, ih]
    cases op with
    | WriteHeader code =>
      simp only [responseWriter.call, Op.codes, WriteHeader_code]
      rw [getLast_cons_getD]
    | Write b => simp only [responseWriter.call, Op.codes, Write_code]
    | End now => simp only [responseWriter.call, Op.codes, responseWriter.End]

/-- An absent accumulator stays absent. -/
theorem calls_body_none (ops : List Op) (rw : responseWriter σ) (h : rw.responseBody = none) :
    (rw.calls S ops).2.responseBody = none := by
  induction ops generalizing rw with
  | nil => simpa [responseWriter.calls] using h
  | cons op ops ih =>
    rw [calls_cons]
    apply ih
    cases op with
    | WriteHeader code => simpa [responseWriter.call, WriteHeader_body] using h
    | Write b => simpa [responseWriter.call] using Write_body_none S rw b h
    | End now => simpa [responseWriter.call, responseWriter.End] using h

/-- A present accumulator grows by the slices of the answered writes. -/
theorem calls_body (ops : List Op) (rw : responseWriter σ) :
    (rw.calls S ops).2.responseBody =
      rw.responseBody.map fun rb => rb ++ recorded (answered (rw.calls S ops).1) := by
  induction ops generalizing rw with
  | nil => simp [responseWriter.calls, answered, recorded]
  | cons op ops ih =>
    rw [calls_cons, ih]
    cases op with
    | WriteHeader code =>
      simp [responseWriter.call, answered, WriteHeader_body]
    | Write b =>
      rcases h : S.Write rw.ResponseWriter b with ⟨res, s⟩
      rcases res with ⟨n, err⟩ | v
      · simp [responseWriter.call, answered, recorded, Write_of_ret S rw b n err s h,
          Option.map_map, Function.comp_def]
      · simp [responseWriter.call, answered, Write_of_panic S rw b v s h]
    | End now =>
      simp [responseWriter.call, answered, responseWriter.End]

/-- When every `Write` call returned, the answered slices are all the slices. -/
theorem recorded_of_allWritesReturned (ops : List Op) (rw : responseWriter σ)
    (h : allWritesReturned (rw.calls S ops).1 = true) :
    recorded (answered (rw.calls S ops).1) = Op.written ops := by
  induction ops generalizing rw with
  | nil => simp [responseWriter.calls, answered, recorded, Op.written]
  | cons op ops ih =>
    rw [calls_cons] at h ⊢
    cases op with
    | WriteHeader code =>
      simp only [responseWriter.call, allWritesReturned] at h
      simpa [responseWriter.call, answered, Op.written] using ih _ h
    | Write b =>
      rcases hres : (rw.Write S b).1 with ⟨n, err⟩ | v
      · simp only [responseWriter.call, hres, allWritesReturned] at h
        have ih2 := ih _ h
        simp only [responseWriter.call] at ih2 ⊢
        simp [hres, answered, recorded, Op.written, ih2]
      · simp [responseWriter.call, hres, allWritesReturned] at h
    | End now =>
      simp only [responseWriter.call, allWritesReturned] at h
      simpa [responseWriter.call, answered, Op.written] using ih _ h

/-- The counter after a run: the old value plus every count the sink reported, in
`int64` arithmetic. -/
theorem calls_bytesWritten (ops : List Op) (rw : responseWriter σ)
    (h : wrapInt64 rw.bytesWritten = rw.bytesWritten) :
    (rw.calls S ops).2.bytesWritten =
      wrapInt64 (rw.bytesWritten + sumReported (answered (rw.calls S ops).1)) := by
  induction ops generalizing rw with
  | nil => simp [responseWriter.calls, answered, sumReported, h]
  | cons op ops ih =>
    rw [calls_cons]
    cases op with
    | WriteHeader code =>
      rw [ih _ (by simpa [responseWriter.call, WriteHeader_bytesWritten] using h)]
      simp [responseWriter.call, answered, WriteHeader_bytesWritten]
    | Write b =>
      rcases hw : S.Write rw.ResponseWriter b with ⟨res, s⟩
      rcases res with ⟨n, err⟩ | v
      · have e := Write_of_ret S rw b n err s hw
        have hin : wrapInt64 (rw.call S (Op.Write b)).2.bytesWritten
            = (rw.call S (Op.Write b)).2.bytesWritten := by
          simp only [responseWriter.call, e]
          have := wrapInt64_wrap_add (rw.bytesWritten + n) 0
          simpa using this
        rw [ih _ hin]
        simp only [responseWriter.call, e, answered, sumReported]
        rw [wrapInt64_wrap_add, add_assoc]
      · have e := Write_of_panic S rw b v s hw
        have hin : wrapInt64 (rw.call S (Op.Write b)).2.bytesWritten
            = (rw.call S (Op.Write b)).2.bytesWritten := by
          simpa [responseWriter.call, e] using h
        rw [ih _ hin]
        simp [responseWriter.call, e, answered]
    | End now =>
      rw [ih _ (by simpa [responseWriter.call, responseWriter.End] using h)]
      simp [responseWriter.call, answered, responseWriter.End]

/-- Under the `io.Writer` contract the reported counts are `len(b)` for the writes
that succeeded and the reported `n` for those that failed. -/
theorem sumReported_of_obeysWriter (hS : S.ObeysWriter) (ops : List Op) (rw : responseWriter σ) :
    sumReported (answered (rw.calls S ops).1) =
      sumSucceeded (answered (rw.calls S ops).1) + sumFailed (answered (rw.calls S ops).1) := by
  induction ops generalizing rw with
  | nil => simp [responseWriter.calls, answered, sumReported, sumSucceeded, sumFailed]
  | cons op ops ih =>
    rw [calls_cons]
    have ih2 := ih (rw.call S op).2
    cases op with
    | WriteHeader code => simpa [responseWriter.call, answered] using ih2
    | Write b =>
      rcases hres : (rw.Write S b).1 with ⟨n, err⟩ | v
      · have hc := hS rw.ResponseWriter b n err (by rw [← Write_fst, hres])
        simp only [responseWriter.call] at ih2 ⊢
        cases err with
        | none =>
          have hn := hc.2.2 rfl
          simp only [hres, answered, sumReported, sumSucceeded, sumFailed, ih2, hn]
          ring
        | some e =>
          simp only [hres, answered, sumReported, sumSucceeded, sumFailed, ih2]
          ring
      · simpa [responseWriter.call, answered, hres] using ih2
    | End now => simpa [responseWriter.call, answered] using ih2

theorem codes_append_one (l : List http.Call) (c : http.Call) :
    http.Call.codes (l ++ [c]) = http.Call.codes l ++ http.Call.codes [c] := by
  induction l with
  | nil => simp [http.Call.codes]
  | cons x l ih => cases x <;> simp [http.Call.codes, ih]

/-- On a journalled sink, the `WriteHeader` codes of the journal grow by the codes of
the `WriteHeader` calls made on the observer, in call order. -/
theorem calls_traced_codes (ops : List Op) (rw : responseWriter (σ × List http.Call)) :
    http.Call.codes (rw.calls S.traced ops).2.ResponseWriter.2 =
      http.Call.codes rw.ResponseWriter.2 ++ Op.codes ops := by
  induction ops generalizing rw with
  | nil => simp [responseWriter.calls, Op.codes]
  | cons op ops ih =>
    rw [calls_cons, ih]
    cases op with
    | WriteHeader code =>
      simp [responseWriter.call, WriteHeader_sink, http.ResponseWriter.traced, Op.codes,
        codes_append_one, http.Call.codes]
    | Write b =>
      simp [responseWriter.call, Write_sink, http.ResponseWriter.traced, Op.codes,
        codes_append_one, http.Call.codes]
    | End now =>
      simp [responseWriter.call, responseWriter.End, Op.codes]

theorem onSink_call_traced (rw : responseWriter σ) (j : List http.Call) (op : Op) :
    (rw.onSink (rw.ResponseWriter, j)).call S.traced op =
      ((rw.call S op).1,
        (rw.call S op).2.onSink ((rw.call S op).2.ResponseWriter, j ++ Op.forwarded [op])) := by
  cases op with
  | WriteHeader code =>
    simp [responseWriter.call, responseWriter.WriteHeader, responseWriter.onSink,
      http.ResponseWriter.traced, Op.forwarded]
  | Write b =>
    rcases hw : S.Write rw.ResponseWriter b with ⟨res, s⟩
    rcases res with ⟨n, err⟩ | v
    · have ht : S.traced.Write (rw.onSink (rw.ResponseWriter, j)).ResponseWriter b
          = (Returns.ret (n, err), (s, j ++ [http.Call.Write b])) := by
        simp [responseWriter.onSink, http.ResponseWriter.traced, hw]
      have e1 := Write_of_ret S rw b n err s hw
      have e2 := Write_of_ret S.traced _ b n err _ ht
      simp only [responseWriter.call, e1, e2]
      simp [responseWriter.onSink, Op.forwarded]
    · have ht : S.traced.Write (rw.onSink (rw.ResponseWriter, j)).ResponseWriter b
          = (Returns.panic v, (s, j ++ [http.Call.Write b])) := by
        simp [responseWriter.onSink, http.ResponseWriter.traced, hw]
      have e1 := Write_of_panic S rw b v s hw
      have e2 := Write_of_panic S.traced _ b v _ ht
      simp only [responseWriter.call, e1, e2]
      simp [responseWriter.onSink, Op.forwarded]
  | End now =>
    simp [responseWriter.call, responseWriter.End, responseWriter.onSink, Op.forwarded]

/-- Journalling the sink changes nothing for the caller or the observer: the run is
the same, and the journal grows by the forwarded calls. -/
theorem onSink_calls_traced (ops : List Op) (rw : responseWriter σ) (j : List http.Call) :
    (rw.onSink (rw.ResponseWriter, j)).calls S.traced ops =
      ((rw.calls S ops).1,
        (rw.calls S ops).2.onSink ((rw.calls S ops).2.ResponseWriter, j ++ Op.forwarded ops)) := by
  induction ops generalizing rw j with
  | nil => simp [responseWriter.calls, Op.forwarded]
  | cons op ops ih =>
    rw [calls_cons, calls_cons, onSink_call_traced]
    rw [ih (rw.call S op).2 (j ++ Op.forwarded [op])]
    cases op <;> simp [Op.forwarded]

end sequences

/-! ## Lemmas on the downstream handler and on the examples -/

theorem Wrap_end_zero {σ : Type} (rwb : ResponseWriterBuilder) (w : σ) (r : http.Request)
    (recordResponse : Bool) (now : Time) : (rwb.Wrap w r recordResponse now).end_ = 0 := by
  cases rwb
  cases recordResponse <;> rfl

theorem Wrap_start {σ : Type} (rwb : ResponseWriterBuilder) (w : σ) (r : http.Request)
    (recordResponse : Bool) (now : Time) : (rwb.Wrap w r recordResponse now).start = now := by
  cases rwb
  cases recordResponse <;> rfl

/-- A downstream handler leaves the start time as it was. -/
theorem Handler_start {σ : Type} (S : http.ResponseWriter σ) (next : http.Handler)
    (rw : responseWriter σ) : (next.ServeHTTP S rw).2.start = rw.start := by
  induction next generalizing rw with
  | Return => rfl
  | Panic v => rfl
  | WriteHeader code k ih =>
    simp only [http.Handler.ServeHTTP]
    rw [ih, WriteHeader_start]
  | Write b k ih =>
    simp only [http.Handler.ServeHTTP]
    rw [ih, Write_start]
  | End now k ih =>
    simp only [http.Handler.ServeHTTP]
    rw [ih]
    rfl

theorem shortSink_obeysWriter : shortSink.ObeysWriter := by
  intro s b n err h
  by_cases hb : b.length ≤ 3
  · simp only [shortSink, hb, if_true] at h
    injection h with h
    injection h with hn he
    subst hn
    subst he
    simp
  · simp only [shortSink, hb, if_false] at h
    injection h with h
    injection h with hn he
    subst hn
    subst he
    refine ⟨by decide, ?_, by simp⟩
    have : 3 < b.length := Nat.lt_of_not_le hb
    omega

theorem wrapInt64_of_range (x : Int) (h0 : 0 ≤ x) (h1 : x < 2 ^ 63) : wrapInt64 x = x := by
  unfold wrapInt64
  norm_num at h1 ⊢
  omega

theorem sumSucceeded_nonneg (l : List (List UInt8 × Int × Option Error)) : 0 ≤ sumSucceeded l := by
  induction l with
  | nil => simp [sumSucceeded]
  | cons x l ih =>
    rcases x with ⟨b, n, err⟩
    cases err with
    | none =>
      simp only [sumSucceeded]
      have : (0 : Int) ≤ (b.length : Int) := Int.natCast_nonneg _
      omega
    | some e => simpa [sumSucceeded] using ih

/-- Under the `io.Writer` contract no failed write reports a negative count. -/
theorem sumFailed_nonneg {σ : Type} (S : http.ResponseWriter σ) (hS : S.ObeysWriter)
    (ops : List Op) (rw : responseWriter σ) : 0 ≤ sumFailed (answered (rw.calls S ops).1) := by
  induction ops generalizing rw with
  | nil => simp [responseWriter.calls, answered, sumFailed]
  | cons op ops ih =>
    rw [calls_cons]
    have ih2 := ih (rw.call S op).2
    cases op with
    | WriteHeader code => simpa [responseWriter.call, answered] using ih2
    | Write b =>
      rcases hres : (rw.Write S b).1 with ⟨n, err⟩ | v
      · have hc := hS rw.ResponseWriter b n err (by rw [← Write_fst, hres])
        simp only [responseWriter.call] at ih2 ⊢
        cases err with
        | none => simpa only [hres, answered, sumFailed] using ih2
        | some e =>
          simp only [hres, answered, sumFailed]
          have := hc.1
          omega
      · simpa [responseWriter.call, answered, hres] using ih2
    | End now => simpa [responseWriter.call, answered] using ih2

/-! ## The observer: properties -/

/-- C1, as stated, fails: on a sink that obeys the `io.Writer` contract and answers
a 13-byte write with `(3, short write)`, no write succeeded, so the sum of `len(b)`
over the successful writes is 0, yet `BytesWritten()` is 3. -/
theorem bytesWritten_counts_failed_write :
    shortSink.ObeysWriter ∧
    ((defaultResponseWriterBuilder.Wrap [] sampleRequest false 0).calls shortSink
        [Op.Write helloWorld]).1
      = [(Op.Write helloWorld, Reply.Write (Returns.ret (3, some "short write")))] ∧
    ((defaultResponseWriterBuilder.Wrap [] sampleRequest false 0).calls shortSink
        [Op.Write helloWorld]).2.BytesWritten = 3 ∧
    sumSucceeded (answered ((defaultResponseWriterBuilder.Wrap [] sampleRequest false 0).calls
        shortSink [Op.Write helloWorld]).1) = 0 ∧
    ((defaultResponseWriterBuilder.Wrap [] sampleRequest false 0).calls shortSink
        [Op.Write helloWorld]).2.BytesWritten ≠
      sumSucceeded (answered ((defaultResponseWriterBuilder.Wrap [] sampleRequest false 0).calls
        shortSink [Op.Write helloWorld]).1) :=
  ⟨shortSink_obeysWriter, by rfl, by rfl, by rfl, by decide⟩

/-- C1, amended: for an observer built by the default builder and any sequence of
calls on a sink that obeys the `io.Writer` contract, `BytesWritten()` is, in `int64`
arithmetic, the sum of `len(b)` over the writes that succeeded plus the sum of the
counts `n` reported by the writes that failed; it is that sum itself while the sum
is below `2^63`. -/
theorem bytesWritten_eq_succeeded_plus_failed {σ : Type} (S : http.ResponseWriter σ)
    (hS : S.ObeysWriter) (w : σ) (r : http.Request) (recordResponse : Bool) (now : Time)
    (ops : List Op) :
    ((defaultResponseWriterBuilder.Wrap w r recordResponse now).calls S ops).2.BytesWritten =
      wrapInt64
        (sumSucceeded (answered ((defaultResponseWriterBuilder.Wrap w r recordResponse now).calls S ops).1)
          + sumFailed (answered ((defaultResponseWriterBuilder.Wrap w r recordResponse now).calls S ops).1)) ∧
    (sumSucceeded (answered ((defaultResponseWriterBuilder.Wrap w r recordResponse now).calls S ops).1)
        + sumFailed (answered ((defaultResponseWriterBuilder.Wrap w r recordResponse now).calls S ops).1)
        < 2 ^ 63 →
      ((defaultResponseWriterBuilder.Wrap w r recordResponse now).calls S ops).2.BytesWritten =
        sumSucceeded (answered ((defaultResponseWriterBuilder.Wrap w r recordResponse now).calls S ops).1)
          + sumFailed (answered ((defaultResponseWriterBuilder.Wrap w r recordResponse now).calls S ops).1)) := by
  have h0 : (defaultResponseWriterBuilder.Wrap w r recordResponse now).bytesWritten = 0 := by
    cases recordResponse <;> rfl
  have key := calls_bytesWritten S ops (defaultResponseWriterBuilder.Wrap w r recordResponse now)
    (by rw [h0]; exact wrapInt64_zero)
  rw [h0, zero_add, sumReported_of_obeysWriter S hS] at key
  refine ⟨key, fun hlt => ?_⟩
  rw [responseWriter.BytesWritten, key]
  apply wrapInt64_of_range _ _ hlt
  have h1 := sumSucceeded_nonneg
    (answered ((defaultResponseWriterBuilder.Wrap w r recordResponse now).calls S ops).1)
  have h2 := sumFailed_nonneg S hS ops (defaultResponseWriterBuilder.Wrap w r recordResponse now)
  omega

/-- C1, amended, at a concrete input: a failed 13-byte write that reported 3 bytes,
then a successful 2-byte write, give `BytesWritten() = 5`. -/
theorem bytesWritten_eq_succeeded_plus_failed_witness :
    shortSink.ObeysWriter ∧
    ((defaultResponseWriterBuilder.Wrap [] sampleRequest true 0).calls shortSink
        [Op.Write helloWorld, Op.Write [1, 2]]).2.BytesWritten = 5 := by
  refine ⟨shortSink_obeysWriter, ?_⟩
  have h := (bytesWritten_eq_succeeded_plus_failed shortSink shortSink_obeysWriter []
    sampleRequest true 0 [Op.Write helloWorld, Op.Write [1, 2]]).1
  rw [h]
  decide

/-- C2: for an observer built by the default builder with `recordResponse = true` and
any sequence of `Write`, `WriteHeader` and `End` calls in which every `Write` call
returned (whatever counts and errors the sink answered), `Body()` holds exactly the
bytes `b_1 ++ ... ++ b_k` of the `Write` calls, in call order. (The nil slice, which
`Body()` returns while nothing has been written, has no bytes.) -/
theorem body_eq_concatenation_of_writes {σ : Type} (S : http.ResponseWriter σ) (w : σ)
    (r : http.Request) (now : Time) (ops : List Op)
    (h : allWritesReturned ((defaultResponseWriterBuilder.Wrap w r true now).calls S ops).1 = true) :
    (((defaultResponseWriterBuilder.Wrap w r true now).calls S ops).2.Body).getD [] =
        Op.written ops ∧
    ((defaultResponseWriterBuilder.Wrap w r true now).calls S ops).2.Body =
        bytes.Buffer.Bytes (Op.written ops) := by
  have hb := calls_body S ops (defaultResponseWriterBuilder.Wrap w r true now)
  rw [recorded_of_allWritesReturned S ops _ h] at hb
  have e : ((defaultResponseWriterBuilder.Wrap w r true now).calls S ops).2.Body =
      bytes.Buffer.Bytes (Op.written ops) := by
    have h0 : (defaultResponseWriterBuilder.Wrap w r true now).responseBody = some [] := rfl
    rw [h0] at hb
    rw [responseWriter.Body, hb]
    simp
  refine ⟨?_, e⟩
  rw [e]
  by_cases hw : Op.written ops = [] <;> simp [bytes.Buffer.Bytes, hw]

/-- C2 at a concrete input: the short-writing sink fails the first write, and the
body still holds all the bytes of both writes. -/
theorem body_eq_concatenation_of_writes_witness :
    allWritesReturned ((defaultResponseWriterBuilder.Wrap [] sampleRequest true 0).calls shortSink
        [Op.WriteHeader 200, Op.Write helloWorld, Op.End 9, Op.Write [33]]).1 = true ∧
    (((defaultResponseWriterBuilder.Wrap [] sampleRequest true 0).calls shortSink
        [Op.WriteHeader 200, Op.Write helloWorld, Op.End 9, Op.Write [33]]).2.Body).getD [] =
      helloWorld ++ [33] :=
  ⟨by rfl, (body_eq_concatenation_of_writes shortSink [] sampleRequest 0
    [Op.WriteHeader 200, Op.Write helloWorld, Op.End 9, Op.Write [33]] (by rfl)).1⟩

/-- C3, as stated, fails: a handler that only writes `"Hello, World!"` and never calls
`WriteHeader` gets its 13 bytes through to the sink, and `Status()` is 0, not 200. -/
theorem status_without_writeHeader_is_not_200 :
    Op.codes [Op.Write helloWorld] = [] ∧
    ((defaultResponseWriterBuilder.Wrap [] sampleRequest false 0).calls plainSink
        [Op.Write helloWorld]).2.ResponseWriter = helloWorld ∧
    ((defaultResponseWriterBuilder.Wrap [] sampleRequest false 0).calls plainSink
        [Op.Write helloWorld]).2.Status = 0 ∧
    ((defaultResponseWriterBuilder.Wrap [] sampleRequest false 0).calls plainSink
        [Op.Write helloWorld]).2.Status ≠ 200 :=
  ⟨by rfl, by rfl, by rfl, by decide⟩

/-- C3, amended: for an observer built by the default builder on which `WriteHeader`
is never called (whatever `Write` and `End` calls are made), `Status()` returns 0,
the zero value of the field that only `WriteHeader` assigns. -/
theorem status_without_writeHeader_is_zero {σ : Type} (S : http.ResponseWriter σ) (w : σ)
    (r : http.Request) (recordResponse : Bool) (now : Time) (ops : List Op)
    (h : Op.codes ops = []) :
    ((defaultResponseWriterBuilder.Wrap w r recordResponse now).calls S ops).2.Status = 0 := by
  rw [responseWriter.Status, calls_code, h]
  cases recordResponse <;> rfl

/-- C3, amended, at a concrete input: two writes and an `End`, no `WriteHeader`. -/
theorem status_without_writeHeader_is_zero_witness :
    Op.codes [Op.Write helloWorld, Op.Write [33], Op.End 9] = [] ∧
    ((defaultResponseWriterBuilder.Wrap [] sampleRequest true 5).calls plainSink
        [Op.Write helloWorld, Op.Write [33], Op.End 9]).2.Status = 0 :=
  ⟨by rfl, status_without_writeHeader_is_zero plainSink [] sampleRequest true 5
    [Op.Write helloWorld, Op.Write [33], Op.End 9] (by rfl)⟩

/-- C4: for every observer, whatever its state, and every sequence of calls in which
`WriteHeader` is called at least once, with `c` the code of the last such call:
`Status()` afterwards is `c`, and the sink received the codes of all the `WriteHeader`
calls, in call order (on the journalled sink, the `WriteHeader` codes in the journal
grow by exactly `Op.codes ops`). -/
theorem status_is_last_code_and_codes_forwarded {σ : Type} (S : http.ResponseWriter σ)
    (rw : responseWriter σ) (journal : List http.Call) (ops : List Op) (c : Int)
    (h : (Op.codes ops).getLast? = some c) :
    (rw.calls S ops).2.Status = c ∧
    http.Call.codes
        ((rw.onSink (rw.ResponseWriter, journal)).calls S.traced ops).2.ResponseWriter.2 =
      http.Call.codes journal ++ Op.codes ops := by
  constructor
  · rw [responseWriter.Status, calls_code, h]
    rfl
  · exact calls_traced_codes S ops (rw.onSink (rw.ResponseWriter, journal))

/-- C4 at a concrete input: `WriteHeader(404)`, a write, `WriteHeader(200)`, `End`. -/
theorem status_is_last_code_and_codes_forwarded_witness :
    (Op.codes [Op.WriteHeader 404, Op.Write helloWorld, Op.WriteHeader 200, Op.End 9]).getLast?
      = some 200 ∧
    ((defaultResponseWriterBuilder.Wrap [] sampleRequest false 5).calls plainSink
        [Op.WriteHeader 404, Op.Write helloWorld, Op.WriteHeader 200, Op.End 9]).2.Status = 200 ∧
    http.Call.codes
        (((defaultResponseWriterBuilder.Wrap ([] : List UInt8) sampleRequest false 5).onSink
            (([] : List UInt8), ([] : List http.Call))).calls plainSink.traced
          [Op.WriteHeader 404, Op.Write helloWorld, Op.WriteHeader 200, Op.End 9]).2.ResponseWriter.2
      = [404, 200] :=
  ⟨by rfl, status_is_last_code_and_codes_forwarded plainSink
    (defaultResponseWriterBuilder.Wrap [] sampleRequest false 5) []
    [Op.WriteHeader 404, Op.Write helloWorld, Op.WriteHeader 200, Op.End 9] 200 (by rfl)⟩

/-- C5: for every sink, every observer state (recording or not) and every slice `b`,
`Write(b)` on the observer
* ends exactly as the sink's `Write(b)` ends on the sink as it is at entry: the same
  pair `(n, err)`, or the same panic;
* leaves the sink exactly as that one direct call leaves it;
* reaches the sink as exactly one call, `Write(b)` (the journal of the journalled
  sink grows by this one entry);
* updates the observer only after the call: if the call panics, every observer field
  is as it was at entry. -/
theorem write_forwards_once_and_first {σ : Type} (S : http.ResponseWriter σ)
    (rw : responseWriter σ) (journal : List http.Call) (b : List UInt8) :
    (rw.Write S b).1 = (S.Write rw.ResponseWriter b).1 ∧
    (rw.Write S b).2.ResponseWriter = (S.Write rw.ResponseWriter b).2 ∧
    ((rw.onSink (rw.ResponseWriter, journal)).Write S.traced b).2.ResponseWriter.2 =
      journal ++ [http.Call.Write b] ∧
    (∀ v : PanicValue, (S.Write rw.ResponseWriter b).1 = Returns.panic v →
      (rw.Write S b).2 = { rw with ResponseWriter := (S.Write rw.ResponseWriter b).2 }) := by
  refine ⟨Write_fst S rw b, Write_sink S rw b, ?_, ?_⟩
  · rw [Write_sink]
    rfl
  · intro v hv
    rcases hw : S.Write rw.ResponseWriter b with ⟨res, s⟩
    rw [hw] at hv
    simp only at hv
    subst hv
    rw [Write_of_panic S rw b v s hw]

/-- C5 at concrete inputs: a write of 13 bytes through a recording observer on the
short-writing sink returns the sink's `(3, short write)` and delivers 3 bytes; on
the panicking sink the observer keeps count and body as they were. -/
theorem write_forwards_once_and_first_witness :
    ((defaultResponseWriterBuilder.Wrap [] sampleRequest true 5).Write shortSink helloWorld).1
      = Returns.ret (3, some "short write") ∧
    ((defaultResponseWriterBuilder.Wrap [] sampleRequest true 5).Write shortSink
        helloWorld).2.ResponseWriter = [72, 101, 108] ∧
    (brokenSink.Write [] helloWorld).1 = Returns.panic "connection hijacked" ∧
    ((defaultResponseWriterBuilder.Wrap [] sampleRequest true 5).Write brokenSink helloWorld).2
      = defaultResponseWriterBuilder.Wrap [] sampleRequest true 5 :=
  ⟨(write_forwards_once_and_first shortSink
      (defaultResponseWriterBuilder.Wrap [] sampleRequest true 5) [] helloWorld).1,
    (write_forwards_once_and_first shortSink
      (defaultResponseWriterBuilder.Wrap [] sampleRequest true 5) [] helloWorld).2.1,
    by rfl,
    (write_forwards_once_and_first brokenSink
      (defaultResponseWriterBuilder.Wrap [] sampleRequest true 5) [] helloWorld).2.2.2
      "connection hijacked" (by rfl)⟩

/-- C10: for an observer built by the default builder with `recordResponse = false`,
after every sequence of `Write`, `WriteHeader` and `End` calls, `Body()` returns nil
and the body accumulator is still absent. -/
theorem body_nil_when_recording_disabled {σ : Type} (S : http.ResponseWriter σ) (w : σ)
    (r : http.Request) (now : Time) (ops : List Op) :
    ((defaultResponseWriterBuilder.Wrap w r false now).calls S ops).2.Body = none ∧
    ((defaultResponseWriterBuilder.Wrap w r false now).calls S ops).2.responseBody = none := by
  have h := calls_body_none S ops (defaultResponseWriterBuilder.Wrap w r false now) rfl
  exact ⟨by rw [responseWriter.Body, h], h⟩

/-! ## The standard collector -/

/-- C8: for every observer and every request, the standard collector returns exactly
these seven attributes, in this order: `remote_addr`, `http_method`, `path` (strings
from the request), `status = Status()`, `body_bytes_sent = BytesWritten()` (integers
from the observer), `http_referer`, `http_user_agent` (the `Referer` and `User-Agent`
headers); a header that is absent gives the empty string, the attribute staying in
place; and the observer and the request are afterwards as they were. -/
theorem standard_collect_attributes {σ : Type} (rw : responseWriter σ) (r : http.Request) :
    (standard.Collect rw r).attrs =
      [ ⟨"remote_addr", slog.Value.KindString r.RemoteAddr⟩,
        ⟨"http_method", slog.Value.KindString r.Method⟩,
        ⟨"path", slog.Value.KindString r.URL.Path⟩,
        ⟨"status", slog.Value.KindInt64 rw.Status⟩,
        ⟨"body_bytes_sent", slog.Value.KindInt64 rw.BytesWritten⟩,
        ⟨"http_referer", slog.Value.KindString (http.Header.Get r.Header "Referer")⟩,
        ⟨"http_user_agent", slog.Value.KindString (http.Header.Get r.Header "User-Agent")⟩ ] ∧
    (standard.Collect rw r).attrs.length = 7 ∧
    (r.Header.lookup "Referer" = none → http.Header.Get r.Header "Referer" = "") ∧
    (r.Header.lookup "User-Agent" = none → http.Header.Get r.Header "User-Agent" = "") ∧
    (standard.Collect rw r).rw = rw ∧
    (standard.Collect rw r).r = r := by
  refine ⟨rfl, rfl, ?_, ?_, rfl, rfl⟩
  · intro h
    simp [http.Header.Get, h]
  · intro h
    simp [http.Header.Get, h]

/-- C8 at a concrete input: the request of the package example, which has no
`Referer` header, after the example handler has run. -/
theorem standard_collect_attributes_witness :
    List.lookup "Referer" sampleRequest.Header = none ∧
    (standard.Collect
        ((defaultResponseWriterBuilder.Wrap [] sampleRequest false 0).calls plainSink
          [Op.WriteHeader 200, Op.Write helloWorld, Op.End 0]).2 sampleRequest).attrs =
      [ ⟨"remote_addr", slog.Value.KindString "127.0.0.1:99999"⟩,
        ⟨"http_method", slog.Value.KindString "GET"⟩,
        ⟨"path", slog.Value.KindString "/"⟩,
        ⟨"status", slog.Value.KindInt64 200⟩,
        ⟨"body_bytes_sent", slog.Value.KindInt64 13⟩,
        ⟨"http_referer", slog.Value.KindString ""⟩,
        ⟨"http_user_agent", slog.Value.KindString "Go-http-client/1.1"⟩ ] := by
  refine ⟨by rfl, ?_⟩
  have h := standard_collect_attributes
    ((defaultResponseWriterBuilder.Wrap [] sampleRequest false 0).calls plainSink
      [Op.WriteHeader 200, Op.Write helloWorld, Op.End 0]).2 sampleRequest
  rw [h.1, h.2.2.1 (by rfl)]
  rfl

/-! ## The middleware -/

/-- C6: for every configuration, sink and request, and every downstream handler that
returns normally, the handler made by `Middleware.Wrap` returns normally and its
calls on collaborators are, in this order and nothing else: the builder's `Wrap`
with the configured `recordResponse`, the downstream `ServeHTTP`, `End()`,
`Collect`, and one `LogAttrs` on the configured logger with the configured level,
the message `"access"` and the attributes that `Collect` returned for the observer
as the downstream handler and `End()` left it. The one log call is the last event,
after the downstream handler has returned. -/
theorem serveHTTP_logs_once_after_handler {σ : Type} (S : http.ResponseWriter σ)
    (al : Middleware σ) (next : http.Handler) (w : σ) (r : http.Request) (now0 now1 : Time)
    (h : (next.ServeHTTP S (al.rwbuilder.Wrap w r al.recordResponse now0)).1 = none) :
    ((al.Wrap next).ServeHTTP S w r now0 now1).panic = none ∧
    ((al.Wrap next).ServeHTTP S w r now0 now1).journal =
      [ Event.Wrap al.recordResponse,
        Event.ServeHTTP,
        Event.End,
        Event.Collect,
        Event.LogAttrs al.logger al.logLevel "access"
          (al.collector.Collect
            ((next.ServeHTTP S (al.rwbuilder.Wrap w r al.recordResponse now0)).2.End now1) r).attrs ] ∧
    ((al.Wrap next).ServeHTTP S w r now0 now1).rw =
      (al.collector.Collect
        ((next.ServeHTTP S (al.rwbuilder.Wrap w r al.recordResponse now0)).2.End now1) r).rw := by
  rcases hn : next.ServeHTTP S (al.rwbuilder.Wrap w r al.recordResponse now0) with ⟨p, rw1⟩
  rw [hn] at h
  simp only at h
  subst h
  simp [handler.ServeHTTP, Middleware.Wrap, hn, handler.process]

/-- C6 at the package example: status 200 and `"Hello, World!"`, default
configuration; one record, with `status = 200` and `body_bytes_sent = 13`. -/
theorem serveHTTP_logs_once_after_handler_witness :
    (exampleHandler.ServeHTTP plainSink
        ((New : Middleware (List UInt8)).rwbuilder.Wrap [] sampleRequest
          (New : Middleware (List UInt8)).recordResponse 5)).1 = none ∧
    ((New.Wrap exampleHandler).ServeHTTP plainSink [] sampleRequest 5 9).journal =
      [ Event.Wrap false,
        Event.ServeHTTP,
        Event.End,
        Event.Collect,
        Event.LogAttrs slog.Default slog.LevelInfo "access"
          [ ⟨"remote_addr", slog.Value.KindString "127.0.0.1:99999"⟩,
            ⟨"http_method", slog.Value.KindString "GET"⟩,
            ⟨"path", slog.Value.KindString "/"⟩,
            ⟨"status", slog.Value.KindInt64 200⟩,
            ⟨"body_bytes_sent", slog.Value.KindInt64 13⟩,
            ⟨"http_referer", slog.Value.KindString ""⟩,
            ⟨"http_user_agent", slog.Value.KindString "Go-http-client/1.1"⟩ ] ] :=
  ⟨by rfl, (serveHTTP_logs_once_after_handler plainSink New exampleHandler [] sampleRequest 5 9
    (by rfl)).2.1⟩

/-- When the downstream handler panics, `ServeHTTP` has called the builder and the
downstream handler and nothing else, and it leaves the observer as the downstream
handler left it. -/
theorem serveHTTP_of_panic {σ : Type} (S : http.ResponseWriter σ) (h : handler σ) (w : σ)
    (r : http.Request) (now0 now1 : Time) (v : PanicValue)
    (hp : (h.next.ServeHTTP S (h.rwbuilder.Wrap w r h.recordResponse now0)).1 = some v) :
    h.ServeHTTP S w r now0 now1 =
      { panic := some v,
        rw := (h.next.ServeHTTP S (h.rwbuilder.Wrap w r h.recordResponse now0)).2,
        journal := [Event.Wrap h.recordResponse, Event.ServeHTTP] } := by
  rcases hn : h.next.ServeHTTP S (h.rwbuilder.Wrap w r h.recordResponse now0) with ⟨p, rw1⟩
  rw [hn] at hp
  simp only at hp
  subst hp
  simp [handler.ServeHTTP, hn]

/-- C7, as stated, fails: when the downstream handler panics, the panic leaves
`ServeHTTP` with its value, and `End()` has not been called: no `End` event, and the
observer's end time is still the zero time although the clock reads 9. -/
theorem panicking_handler_skips_end :
    (panickingHandler.ServeHTTP plainSink
        ((New : Middleware (List UInt8)).rwbuilder.Wrap [] sampleRequest
          (New : Middleware (List UInt8)).recordResponse 5)).1 = some "boom" ∧
    ((New.Wrap panickingHandler).ServeHTTP plainSink [] sampleRequest 5 9).panic = some "boom" ∧
    Event.End ∉ ((New.Wrap panickingHandler).ServeHTTP plainSink [] sampleRequest 5 9).journal ∧
    ((New.Wrap panickingHandler).ServeHTTP plainSink [] sampleRequest 5 9).rw.EndTime = 0 :=
  ⟨by rfl, by rfl, by decide, by rfl⟩

/-- C7, amended: for every request whose downstream handler aborts with a panic, the
panic leaves the middleware's `ServeHTTP` with the same value, and the middleware
has not called `End()` on the observer for that request. -/
theorem panic_propagates_and_middleware_skips_end {σ : Type} (S : http.ResponseWriter σ)
    (al : Middleware σ) (next : http.Handler) (w : σ) (r : http.Request) (now0 now1 : Time)
    (v : PanicValue)
    (h : (next.ServeHTTP S (al.rwbuilder.Wrap w r al.recordResponse now0)).1 = some v) :
    ((al.Wrap next).ServeHTTP S w r now0 now1).panic = some v ∧
    Event.End ∉ ((al.Wrap next).ServeHTTP S w r now0 now1).journal := by
  rw [serveHTTP_of_panic S (al.Wrap next) w r now0 now1 v h]
  exact ⟨rfl, by simp⟩

/-- C7, amended, at concrete inputs. The sink panics inside the handler's `Write`, the
handler lets the panic through, and it leaves `ServeHTTP` unchanged with no `End()`
from the middleware. And a handler that called `End()` itself before panicking: the
middleware adds no `End()` of its own, the end time is the handler's 7, not the 9
the clock reads afterwards. -/
theorem panic_propagates_and_middleware_skips_end_witness :
    (writeOrDieHandler.ServeHTTP brokenSink
        ((New : Middleware (List UInt8)).rwbuilder.Wrap [] sampleRequest
          (New : Middleware (List UInt8)).recordResponse 5)).1 = some "connection hijacked" ∧
    ((New.Wrap writeOrDieHandler).ServeHTTP brokenSink [] sampleRequest 5 9).panic
      = some "connection hijacked" ∧
    Event.End ∉ ((New.Wrap writeOrDieHandler).ServeHTTP brokenSink [] sampleRequest 5 9).journal ∧
    ((New.Wrap endThenPanicHandler).ServeHTTP plainSink [] sampleRequest 5 9).panic
      = some "boom" ∧
    Event.End ∉ ((New.Wrap endThenPanicHandler).ServeHTTP plainSink [] sampleRequest 5 9).journal ∧
    ((New.Wrap endThenPanicHandler).ServeHTTP plainSink [] sampleRequest 5 9).rw.EndTime = 7 :=
  ⟨by rfl,
    (panic_propagates_and_middleware_skips_end brokenSink New writeOrDieHandler [] sampleRequest
      5 9 "connection hijacked" (by rfl)).1,
    (panic_propagates_and_middleware_skips_end brokenSink New writeOrDieHandler [] sampleRequest
      5 9 "connection hijacked" (by rfl)).2,
    (panic_propagates_and_middleware_skips_end plainSink New endThenPanicHandler [] sampleRequest
      5 9 "boom" (by rfl)).1,
    (panic_propagates_and_middleware_skips_end plainSink New endThenPanicHandler [] sampleRequest
      5 9 "boom" (by rfl)).2,
    by rfl⟩

/-- The configured clock has no influence on `ServeHTTP`. -/
theorem serveHTTP_ignores_clock {σ : Type} (S : http.ResponseWriter σ) (al : Middleware σ)
    (c : Clock) (next : http.Handler) (w : σ) (r : http.Request) (now0 now1 : Time) :
    ((al.Clock c).Wrap next).ServeHTTP S w r now0 now1 = (al.Wrap next).ServeHTTP S w r now0 now1 :=
  rfl

/-- The observer built for a request starts at the reading of the system clock. -/
theorem wrapped_startTime_is_system_time {σ : Type} (al : Middleware σ) (c : Clock)
    (next : http.Handler) (w : σ) (r : http.Request) (now0 : Time) :
    (((al.Clock c).Wrap next).rwbuilder.Wrap w r ((al.Clock c).Wrap next).recordResponse
      now0).StartTime = now0 :=
  Wrap_start _ w r _ now0

/-- With the standard collector, the observer that `ServeHTTP` leaves behind starts at
the reading of the system clock, whatever clock was configured and however the
downstream handler ends. -/
theorem served_startTime_is_system_time {σ : Type} (S : http.ResponseWriter σ) (c : Clock)
    (next : http.Handler) (w : σ) (r : http.Request) (now0 now1 : Time) :
    (((New.Clock c).Wrap next).ServeHTTP S w r now0 now1).rw.StartTime = now0 := by
  have hs := Handler_start S next
    (DefaultResponseWriterBuilder.Wrap w r false now0 : responseWriter σ)
  rw [Wrap_start] at hs
  rcases hn : next.ServeHTTP S
    (DefaultResponseWriterBuilder.Wrap w r false now0 : responseWriter σ) with ⟨p, rw1⟩
  rw [hn] at hs
  simp only at hs
  cases p <;>
    simp [handler.ServeHTTP, Middleware.Wrap, Middleware.Clock, New, hn, handler.process,
      Standard, standard.Collect, responseWriter.End, responseWriter.StartTime, hs]

/-- C9 fails on the code: with `Clock(StaticClock(t))` for `t` the zero time, as in the
package example, and the system clock reading 5 when the request arrives, the
configured clock reports 0, but the observer built for the request has
`StartTime() = 5`: the builder reads `time.Now()`, and the configured clock is never
consulted. -/
theorem startTime_is_system_time_not_configured_clock :
    ((New.Clock (StaticClock 0)).Wrap exampleHandler : handler (List UInt8)).clock.Now 5 = 0 ∧
    (((New.Clock (StaticClock 0)).Wrap exampleHandler : handler (List UInt8)).rwbuilder.Wrap
        ([] : List UInt8) sampleRequest false 5).StartTime = 5 ∧
    (((New.Clock (StaticClock 0)).Wrap exampleHandler).ServeHTTP plainSink [] sampleRequest
        5 9).rw.StartTime = 5 :=
  ⟨by rfl, by rfl, by rfl⟩

end accesslog
